import Mathlib

/-!
# Verification of the idlewatcher daemon (src/main.rs)

Shallow embedding of the idle-detection daemon: the session idle sampler
(the utmp scan in main), the Wayland link state machine (WaylandState,
wayland_connect, the per-tick service code), the fusion rule and the
per-tick loop body. Machine integers are modelled as Nat with explicit
bounds: u64 subtraction that can underflow and the unwrap on device
metadata are modelled as an Except value (a panic aborts the process),
and the u32 truncation and multiplication in the idle-notification
threshold use explicit mod 2^32 (wrapping semantics).
-/

namespace Idlewatcher

/-- Modulus of 64-bit unsigned arithmetic. -/
def U64MOD : Nat := 2 ^ 64

/-- u64::MAX, the initial value of most_active in the main loop. -/
def u64MAX : Nat := 2 ^ 64 - 1

/-- Reinterpretation of an i64 value as u64 (Rust cast atime as u64). -/
def i64ToU64 (a : Int) : Nat := (a % (2 ^ 64 : Int)).toNat

/-- Ways the per-tick sampler code can panic: the unwrap on
fs::metadata of a session device, and the unchecked u64 subtraction
now - atime. -/
inductive PanicKind where
  | metadataUnwrap
  | subUnderflow
deriving DecidableEq, Repr

/-- Entries of the login-session table (utmp_rs::UtmpEntry), reduced to
the two shapes the scan distinguishes: UserProcess with its line, and
everything else. -/
inductive UtmpEntry where
  | userProcess (line : String)
  | other
deriving DecidableEq, Repr

/-- Device path built from a utmp line (format "/dev/" line). -/
def devPath (line : String) : String := "/dev/" ++ line

/-- One iteration of the utmp scan in main: for a UserProcess entry,
read the device atime (unwrap panics when the metadata read fails),
compute idle_time = now - atime as u64 (underflow is a panic), and
keep the smaller of idle_time and the accumulator most_active. -/
def utmpStep (now : Nat) (atimes : String → Option Int) (acc : Nat) :
    UtmpEntry → Except PanicKind Nat
  | .userProcess line =>
    match atimes (devPath line) with
    | none => .error .metadataUnwrap
    | some atime =>
      let au := i64ToU64 atime
      if au ≤ now then
        let idle_time := now - au
        .ok (if idle_time < acc then idle_time else acc)
      else .error .subUnderflow
  | .other => .ok acc

/-- The scan over all utmp entries, threading most_active. -/
def utmpScan (now : Nat) (atimes : String → Option Int) :
    List UtmpEntry → Nat → Except PanicKind Nat
  | [], acc => .ok acc
  | e :: rest, acc =>
    match utmpStep now atimes acc e with
    | .error k => .error k
    | .ok acc2 => utmpScan now atimes rest acc2

/-- The session idle sample of one tick of main: most_active starts at
u64::MAX; when parse_from_path fails (utmp = none) the scan is skipped
and the sentinel remains; otherwise the entries are scanned. -/
def sample (utmp : Option (List UtmpEntry)) (now : Nat)
    (atimes : String → Option Int) : Except PanicKind Nat :=
  match utmp with
  | none => .ok u64MAX
  | some entries => utmpScan now atimes entries u64MAX

/-- The idle durations of the qualifying (UserProcess) sessions whose
device metadata is readable, in scan order. -/
def idlesOf (now : Nat) (atimes : String → Option Int) :
    List UtmpEntry → List Nat
  | [] => []
  | .userProcess line :: rest =>
    match atimes (devPath line) with
    | some a => (now - i64ToU64 a) :: idlesOf now atimes rest
    | none => idlesOf now atimes rest
  | .other :: rest => idlesOf now atimes rest

/-- Events an idle-notification subscription can deliver to the
callback (ext_idle_notification_v1 events: Idled, Resumed, or a
variant unknown to the match). -/
inductive WayEvent where
  | idled
  | resumed
  | unknown
deriving DecidableEq, Repr

/-- The callback way_idle_cb acting on the idle flag of State: Idled
sets it, Resumed clears it, anything else is logged and ignored. -/
def way_idle_cb (idle : Bool) (e : WayEvent) : Bool :=
  match e with
  | .idled => true
  | .resumed => false
  | .unknown => idle

/-- dispatch_events: the queued events are run through way_idle_cb in
order, starting from the current idle flag. -/
def dispatch_events (idle : Bool) (events : List WayEvent) : Bool :=
  events.foldl way_idle_cb idle

/-- WaylandState of the main loop: Enabled holds the connection (an
abstract handle) and the idle flag of the State it owns; Disabled
holds nothing. -/
inductive WaylandState where
  | enabled (conn : Nat) (idle : Bool)
  | disabled
deriving DecidableEq, Repr

/-- Outcome of conn.recv_events(IoMode::NonBlocking) on a tick:
success, an error of kind WouldBlock, or any other I/O error. -/
inductive RecvOutcome where
  | ok
  | errWouldBlock
  | errOther
deriving DecidableEq, Repr

/-- Environment of one wayland_connect attempt: whether WAYLAND_DISPLAY
is set, the uid, which per-user sockets exist, whether
connect_and_collect_globals succeeds (and the handle of the fresh
connection), whether blocking_roundtrip succeeds, whether the
idle-notifier bind with version 1..=1 succeeds, and the seats bound
from the globals. -/
structure ConnectEnv where
  displayVar : Bool
  uid : Nat
  socketAt : Nat → Bool
  connectOk : Option Nat
  roundtripOk : Bool
  bindNotifierOk : Bool
  seats : List Nat

/-- Result of wayland_connect: the returned WaylandState, the index i
such that WAYLAND_DISPLAY was set to wayland-i by the probe (none when
the variable was already set or the probe failed), whether the
"Unable to identify Wayland display" diagnostic was emitted, and the
idle-notification subscriptions registered, one (seat, threshold in
ms) pair per seat. -/
structure ConnectResult where
  link : WaylandState
  setDisplayVar : Option Nat
  noDisplayReported : Bool
  subs : List (Nat × Nat)

/-- The probe of wayland_connect: for i in 1..10, test
/var/run/user/uid/wayland-i and take the first index that exists. -/
def probeDisplay (socketAt : Nat → Bool) : Option Nat :=
  (List.range' 1 9).find? fun i => socketAt i

/-- The threshold handed to get_idle_notification_with_cb:
idle_limit as u32 * 1000 computed in u32, i.e. truncation to 32 bits
followed by a wrapping multiplication by 1000. -/
def thresholdMs (idle_limit : Nat) : Nat :=
  ((idle_limit % 2 ^ 32) * 1000) % 2 ^ 32

/-- wayland_connect: resolve WAYLAND_DISPLAY (probing sockets 1..9
when absent), connect and collect globals, bind seats, perform the
blocking roundtrip, dispatch pending events, bind the idle notifier at
version 1..=1, then register one idle-notification subscription per
seat; the State starts with idle = false. Every failing stage returns
Disabled. -/
def wayland_connect (env : ConnectEnv) (idle_limit : Nat) : ConnectResult :=
  let failed : ConnectResult :=
    { link := .disabled, setDisplayVar := none
      noDisplayReported := false, subs := [] }
  if env.displayVar then
    match env.connectOk with
    | none => failed
    | some conn =>
      if env.roundtripOk then
        if env.bindNotifierOk then
          { link := .enabled conn false, setDisplayVar := none
            noDisplayReported := false
            subs := env.seats.map fun s => (s, thresholdMs idle_limit) }
        else failed
      else failed
  else
    match probeDisplay env.socketAt with
    | none =>
      { link := .disabled, setDisplayVar := none
        noDisplayReported := true, subs := [] }
    | some i =>
      match env.connectOk with
      | none => { failed with setDisplayVar := some i }
      | some conn =>
        if env.roundtripOk then
          if env.bindNotifierOk then
            { link := .enabled conn false, setDisplayVar := some i
              noDisplayReported := false
              subs := env.seats.map fun s => (s, thresholdMs idle_limit) }
          else { failed with setDisplayVar := some i }
        else { failed with setDisplayVar := some i }

/-- The mutable locals of the main loop that survive from one tick to
the next: the WaylandState and the wayland_idle flag. -/
structure LoopState where
  wayland : WaylandState
  wayland_idle : Bool
deriving DecidableEq, Repr

/-- Loop state at program start: wayland = Disabled,
wayland_idle = false. -/
def initState : LoopState := { wayland := .disabled, wayland_idle := false }

/-- External inputs of one tick: the parsed utmp table (none when
parse_from_path fails), the current wall-clock seconds, the device
atimes, the recv_events outcome and the events dispatched while
Enabled, and the environment a reconnect attempt would see. -/
structure TickEnv where
  utmp : Option (List UtmpEntry)
  now : Nat
  atimes : String → Option Int
  recv : RecvOutcome
  events : List WayEvent
  conn : ConnectEnv

/-- The observable outcome of one tick: the sampled most_active, the
wayland_idle value tested by the fusion rule, the fusion decision, and
whether the action command was spawned. -/
structure TickOut where
  most_active : Nat
  graphical_idle : Bool
  fire : Bool
  spawned : Bool
deriving DecidableEq, Repr

/-- The fusion decision of line 166:
most_active > idle_limit && wayland_idle == true. -/
def fireDecision (most_active idle_limit : Nat) (wayland_idle : Bool) : Bool :=
  decide (idle_limit < most_active) && wayland_idle

/-- The tick body after the utmp sample produced most_active: service
or reconnect the Wayland link, evaluate the fusion rule, and on fire
reset wayland_idle and spawn the action. While Enabled the events are
dispatched and wayland_idle is overwritten from the idle flag of
State; a recv error other than WouldBlock marks wayland_error, which
triggers wayland_connect after the match; while Disabled wayland_error
is set and wayland_idle keeps its carried value. -/
def tickCore (idle_limit : Nat) (env : TickEnv) (s : LoopState)
    (most_active : Nat) : LoopState × TickOut :=
  match s.wayland with
  | .enabled conn idle =>
    let idle2 := dispatch_events idle env.events
    let link2 := if env.recv = .errOther
      then (wayland_connect env.conn idle_limit).link
      else .enabled conn idle2
    let fire := fireDecision most_active idle_limit idle2
    ({ wayland := link2, wayland_idle := if fire then false else idle2 },
     { most_active := most_active, graphical_idle := idle2
       fire := fire, spawned := fire })
  | .disabled =>
    let widle := s.wayland_idle
    let link2 := (wayland_connect env.conn idle_limit).link
    let fire := fireDecision most_active idle_limit widle
    ({ wayland := link2, wayland_idle := if fire then false else widle },
     { most_active := most_active, graphical_idle := widle
       fire := fire, spawned := fire })

/-- One full tick of the main loop: sample the session table (a panic
aborts the tick and the process), then run the tick body. -/
def tick (idle_limit : Nat) (env : TickEnv) (s : LoopState) :
    Except PanicKind (LoopState × TickOut) :=
  match sample env.utmp env.now env.atimes with
  | .error k => .error k
  | .ok most_active => .ok (tickCore idle_limit env s most_active)

/-- Iterated ticks: run the loop body once per environment in the
list, collecting the per-tick outcomes. -/
def run (idle_limit : Nat) :
    List TickEnv → LoopState → Except PanicKind (LoopState × List TickOut)
  | [], s => .ok (s, [])
  | e :: rest, s =>
    match tick idle_limit e s with
    | .error k => .error k
    | .ok (s2, o) =>
      match run idle_limit rest s2 with
      | .error k => .error k
      | .ok (s3, os) => .ok (s3, o :: os)

/-! ## Helper lemmas -/

lemma tick_ok_elim {idle_limit : Nat} {env : TickEnv} {s s1 : LoopState}
    {o : TickOut} (h : tick idle_limit env s = .ok (s1, o)) :
    ∃ ma, sample env.utmp env.now env.atimes = .ok ma ∧
      tickCore idle_limit env s ma = (s1, o) := by
  unfold tick at h
  cases hs : sample env.utmp env.now env.atimes <;> rw [hs] at h
  · exact absurd h (by simp)
  · simp only [Except.ok.injEq] at h
    exact ⟨_, rfl, h⟩

lemma foldlMin_le_init (l : List Nat) :
    ∀ acc : Nat, List.foldl (fun m d => min m d) acc l ≤ acc := by
  induction l with
  | nil => intro acc; simp
  | cons d t ih =>
    intro acc
    simpa using le_trans (ih (min acc d)) (Nat.min_le_left acc d)

lemma foldlMin_le_mem (l : List Nat) :
    ∀ acc d : Nat, d ∈ l → List.foldl (fun m d => min m d) acc l ≤ d := by
  induction l with
  | nil => intro acc d h; exact absurd h (List.not_mem_nil d)
  | cons e t ih =>
    intro acc d h
    rcases List.mem_cons.mp h with rfl | ht
    · simpa using le_trans (foldlMin_le_init t (min acc d)) (Nat.min_le_right acc d)
    · simpa using ih (min acc e) d ht

lemma foldlMin_mem_or_init (l : List Nat) :
    ∀ acc : Nat, List.foldl (fun m d => min m d) acc l = acc ∨
      List.foldl (fun m d => min m d) acc l ∈ l := by
  induction l with
  | nil => intro acc; simp
  | cons e t ih =>
    intro acc
    rcases ih (min acc e) with heq | hmem
    · have hval : List.foldl (fun m d => min m d) acc (e :: t) = min acc e := by
        simpa using heq
      rcases Nat.le_total acc e with hle | hle
      · left; rw [hval, Nat.min_eq_left hle]
      · right; rw [hval, Nat.min_eq_right hle]
        exact List.mem_cons_self e t
    · right
      simp only [List.foldl_cons]
      exact List.mem_cons_of_mem e hmem

lemma utmpScan_eq_foldl (now : Nat) (atimes : String → Option Int)
    (l : List UtmpEntry) :
    ∀ acc : Nat,
      (∀ line, UtmpEntry.userProcess line ∈ l →
        ∃ a, atimes (devPath line) = some a ∧ i64ToU64 a ≤ now) →
      utmpScan now atimes l acc =
        .ok (List.foldl (fun m d => min m d) acc (idlesOf now atimes l)) := by
  induction l with
  | nil => intro acc _; simp [utmpScan, idlesOf]
  | cons e rest ih =>
    intro acc h
    cases e with
    | userProcess line =>
      obtain ⟨a, ha, hle⟩ := h line (List.mem_cons_self _ _)
      have hstep : (if now - i64ToU64 a < acc then now - i64ToU64 a else acc) =
          min acc (now - i64ToU64 a) := by
        rcases Nat.lt_or_ge (now - i64ToU64 a) acc with hlt | hge
        · simp [Nat.min_eq_right (Nat.le_of_lt hlt), hlt]
        · simp [Nat.min_eq_left hge, Nat.not_lt.mpr hge]
      simp only [utmpScan, utmpStep, ha, hle, if_pos, idlesOf, List.foldl_cons]
      rw [hstep]
      exact ih (min acc (now - i64ToU64 a))
        (fun l2 hm => h l2 (List.mem_cons_of_mem _ hm))
    | other =>
      simp only [utmpScan, utmpStep, idlesOf]
      exact ih acc (fun l2 hm => h l2 (List.mem_cons_of_mem _ hm))

lemma utmpScan_error_of_bad (now : Nat) (atimes : String → Option Int) :
    ∀ (l : List UtmpEntry) (acc : Nat) (line : String),
      UtmpEntry.userProcess line ∈ l → atimes (devPath line) = none →
      ∃ k, utmpScan now atimes l acc = .error k := by
  intro l
  induction l with
  | nil => intro acc line h _; exact absurd h (List.not_mem_nil _)
  | cons e rest ih =>
    intro acc line h hbad
    cases e with
    | userProcess l2 =>
      cases h2 : atimes (devPath l2) with
      | none => exact ⟨.metadataUnwrap, by simp [utmpScan, utmpStep, h2]⟩
      | some a =>
        by_cases hle : i64ToU64 a ≤ now
        · have hrest : UtmpEntry.userProcess line ∈ rest := by
            rcases List.mem_cons.mp h with heq | ht
            · cases heq
              exact absurd h2 (by rw [hbad]; simp)
            · exact ht
          obtain ⟨k, hk⟩ :=
            ih (if now - i64ToU64 a < acc then now - i64ToU64 a else acc)
              line hrest hbad
          exact ⟨k, by simp [utmpScan, utmpStep, h2, hle, hk]⟩
        · exact ⟨.subUnderflow, by simp [utmpScan, utmpStep, h2, hle]⟩
    | other =>
      have hrest : UtmpEntry.userProcess line ∈ rest := by
        rcases List.mem_cons.mp h with heq | ht
        · exact absurd heq (by simp)
        · exact ht
      obtain ⟨k, hk⟩ := ih acc line hrest hbad
      exact ⟨k, by simp [utmpScan, utmpStep, hk]⟩

lemma connect_enabled_elim {env : ConnectEnv} {idle_limit conn : Nat}
    {idle : Bool}
    (h : (wayland_connect env idle_limit).link = .enabled conn idle) :
    env.connectOk = some conn ∧ idle = false := by
  cases hd : env.displayVar <;>
    cases hp : probeDisplay env.socketAt <;>
      cases hc : env.connectOk <;>
        cases hr : env.roundtripOk <;>
          cases hb : env.bindNotifierOk <;>
            simp_all [wayland_connect]

lemma connect_subs_elim {env : ConnectEnv} {idle_limit : Nat}
    {p : Nat × Nat} (h : p ∈ (wayland_connect env idle_limit).subs) :
    p.2 = thresholdMs idle_limit := by
  cases hd : env.displayVar <;>
    cases hp : probeDisplay env.socketAt <;>
      cases hc : env.connectOk <;>
        cases hr : env.roundtripOk <;>
          cases hb : env.bindNotifierOk <;>
            simp_all [wayland_connect] <;>
              (obtain ⟨s, _, rfl⟩ := h; rfl)

/-! ## Claim theorems -/

/-- Claim C2: on every tick, the fusion decision of line 166 equals the
conjunction of the two signals: fire is true exactly when the sampled
most_active strictly exceeds idle_limit and the graphical idle flag
tested on that tick is true; the three rows of the truth table follow. -/
theorem c2_fusion_rule (idle_limit : Nat) (env : TickEnv) (s s1 : LoopState)
    (o : TickOut) (h : tick idle_limit env s = .ok (s1, o)) :
    (o.fire = true ↔ idle_limit < o.most_active ∧ o.graphical_idle = true) ∧
    (o.most_active ≤ idle_limit → o.fire = false) ∧
    (o.graphical_idle = false → o.fire = false) ∧
    (idle_limit < o.most_active → o.graphical_idle = true → o.fire = true) := by
  obtain ⟨ma, _, hc⟩ := tick_ok_elim h
  have hfire : o.fire = fireDecision o.most_active idle_limit o.graphical_idle ∧
      o.most_active = ma := by
    cases hw : s.wayland <;> simp only [tickCore, hw] at hc <;>
      (obtain ⟨h1, h2⟩ := Prod.mk.injEq .. ▸ hc; subst h2; exact ⟨rfl, rfl⟩)
  rcases hfire with ⟨hf, _⟩
  rw [hf]
  unfold fireDecision
  refine ⟨by simp, ?_, ?_, ?_⟩
  · intro hle; simp [Nat.not_lt.mpr hle]
  · intro hg; simp [hg]
  · intro h1 h2; simp [h1, h2]

/-- Closed witness for C2, at a concrete tick: the loop starts Disabled
with wayland_idle false, the session table is unreadable, reconnect
fails, and the fusion decision is false because the graphical flag is
false. -/
theorem c2_fusion_rule_witness :
    (⟨u64MAX, false, false, false⟩ : TickOut).fire = false :=
  (c2_fusion_rule 10
    { utmp := none, now := 0, atimes := fun _ => none, recv := .ok
      events := []
      conn := { displayVar := true, uid := 0, socketAt := fun _ => false
                connectOk := none, roundtripOk := true
                bindNotifierOk := true, seats := [] } }
    initState ⟨.disabled, false⟩ ⟨u64MAX, false, false, false⟩
    (by rfl)).2.2.1 rfl

/-- Claim C7: on a tick whose qualifying sessions are all readable and
have last-access times not beyond now, the sampler returns the minimum
idle duration over those sessions; it returns the sentinel u64::MAX
when the session table cannot be read, and also when no qualifying
session contributes an idle value; the sentinel exceeds any threshold
below u64::MAX, and the fusion rule still returns false at the
sentinel when the graphical flag is false. -/
theorem c7_sampler_minimum (now : Nat) (atimes : String → Option Int)
    (entries : List UtmpEntry) (idle_limit : Nat)
    (hwf : ∀ line, UtmpEntry.userProcess line ∈ entries →
      ∃ a, atimes (devPath line) = some a ∧ i64ToU64 a ≤ now)
    (hlim : idle_limit < u64MAX) :
    (∃ m, sample (some entries) now atimes = .ok m ∧
      (∀ d ∈ idlesOf now atimes entries, m ≤ d) ∧
      (m ∈ idlesOf now atimes entries ∨ m = u64MAX) ∧
      (idlesOf now atimes entries = [] → m = u64MAX)) ∧
    sample none now atimes = .ok u64MAX ∧
    fireDecision u64MAX idle_limit false = false ∧
    fireDecision u64MAX idle_limit true = true := by
  refine ⟨?_, rfl, by simp [fireDecision], by simp [fireDecision, hlim]⟩
  refine ⟨List.foldl (fun m d => min m d) u64MAX (idlesOf now atimes entries),
    ?_, ?_, ?_, ?_⟩
  · exact utmpScan_eq_foldl now atimes entries u64MAX hwf
  · exact fun d hd => foldlMin_le_mem _ u64MAX d hd
  · rcases foldlMin_mem_or_init (idlesOf now atimes entries) u64MAX with h | h
    · right; exact h
    · left; exact h
  · intro hnil; rw [hnil]; rfl

/-- Closed witness for C7: two sessions with idle durations 60 and 10
give the minimum 10, and an unreadable table gives the sentinel. -/
theorem c7_sampler_minimum_witness :
    ∃ m, sample
        (some [UtmpEntry.userProcess "tty1", UtmpEntry.other,
               UtmpEntry.userProcess "tty2"]) 100
        (fun p => if p = devPath "tty1" then some 40
          else if p = devPath "tty2" then some 90 else none) = .ok m ∧
      (∀ d ∈ idlesOf 100
        (fun p => if p = devPath "tty1" then some 40
          else if p = devPath "tty2" then some 90 else none)
        [UtmpEntry.userProcess "tty1", UtmpEntry.other,
         UtmpEntry.userProcess "tty2"], m ≤ d) ∧
      (m ∈ idlesOf 100
        (fun p => if p = devPath "tty1" then some 40
          else if p = devPath "tty2" then some 90 else none)
        [UtmpEntry.userProcess "tty1", UtmpEntry.other,
         UtmpEntry.userProcess "tty2"] ∨ m = u64MAX) ∧
      (idlesOf 100
        (fun p => if p = devPath "tty1" then some 40
          else if p = devPath "tty2" then some 90 else none)
        [UtmpEntry.userProcess "tty1", UtmpEntry.other,
         UtmpEntry.userProcess "tty2"] = [] → m = u64MAX) :=
  (c7_sampler_minimum 100
    (fun p => if p = devPath "tty1" then some 40
      else if p = devPath "tty2" then some 90 else none)
    [UtmpEntry.userProcess "tty1", UtmpEntry.other,
     UtmpEntry.userProcess "tty2"] 30
    (by
      intro line hmem
      simp only [List.mem_cons, List.not_mem_nil, or_false] at hmem
      rcases hmem with h | h | h
      · cases h; exact ⟨40, by simp, by decide⟩
      · exact absurd h (by simp)
      · cases h; exact ⟨90, by simp [devPath], by decide⟩)
    (by decide)).1

/-- Claim C9: the per-session idle computation now - (atime as u64) is
well-defined exactly under the precondition that no qualifying session
has a last-access time beyond the sampled now: under that precondition
(with readable devices) the sampler returns a value, and there is a
concrete input — a device whose access time 6 is later than now = 5 —
on which the unchecked u64 subtraction underflows and the sampler is
not total. -/
theorem c9_sampler_underflow :
    (∀ (now : Nat) (atimes : String → Option Int) (entries : List UtmpEntry),
      (∀ line, UtmpEntry.userProcess line ∈ entries →
        ∃ a, atimes (devPath line) = some a ∧ i64ToU64 a ≤ now) →
      ∃ m, sample (some entries) now atimes = .ok m) ∧
    sample (some [UtmpEntry.userProcess "tty9"]) 5
      (fun p => if p = devPath "tty9" then some 6 else none) =
      .error .subUnderflow := by
  constructor
  · intro now atimes entries h
    exact ⟨_, utmpScan_eq_foldl now atimes entries u64MAX h⟩
  · rfl

/-- Closed witness for C9: the total-under-precondition half applied to
a one-session table whose access time 90 is at or before now = 100. -/
theorem c9_sampler_underflow_witness :
    ∃ m, sample (some [UtmpEntry.userProcess "ttyZ"]) 100
      (fun p => if p = devPath "ttyZ" then some 90 else none) = .ok m :=
  c9_sampler_underflow.1 100
    (fun p => if p = devPath "ttyZ" then some 90 else none)
    [UtmpEntry.userProcess "ttyZ"]
    (by
      intro line hmem
      simp only [List.mem_cons, List.not_mem_nil, or_false] at hmem
      cases hmem
      exact ⟨90, by simp, by decide⟩)

/-- Counterexample to claim C3: a table with two user-process sessions,
the first of which has unreadable device metadata while the second is
readable with idle duration 100. The claim predicts the unreadable
session is skipped and the sample is ok 100; the code unwraps the
failed metadata read and panics, modelled as the metadataUnwrap error,
aborting the whole sample. -/
theorem c3_counterexample :
    sample (some [UtmpEntry.userProcess "ttyA", UtmpEntry.userProcess "ttyB"])
      100 (fun p => if p = devPath "ttyB" then some 0 else none) =
      .error .metadataUnwrap ∧
    sample (some [UtmpEntry.userProcess "ttyA", UtmpEntry.userProcess "ttyB"])
      100 (fun p => if p = devPath "ttyB" then some 0 else none) ≠
      .ok 100 := by
  have h : sample
      (some [UtmpEntry.userProcess "ttyA", UtmpEntry.userProcess "ttyB"])
      100 (fun p => if p = devPath "ttyB" then some 0 else none) =
      .error .metadataUnwrap := rfl
  exact ⟨h, by rw [h]; exact fun hc => Except.noConfusion hc⟩

/-- Claim C3 as amended: when any user-process session of the table
has unreadable device metadata, the sampler does not return a minimum
at all — the unwrap on fs::metadata panics (an error result here),
aborting the whole sample and the process; there is no per-session
skipping of read errors. -/
theorem c3_unreadable_device_panics (now : Nat)
    (atimes : String → Option Int) (entries : List UtmpEntry)
    (line : String) (hmem : UtmpEntry.userProcess line ∈ entries)
    (hbad : atimes (devPath line) = none) :
    (∃ k, sample (some entries) now atimes = .error k) ∧
    ∀ m : Nat, sample (some entries) now atimes ≠ .ok m := by
  obtain ⟨k, hk⟩ := utmpScan_error_of_bad now atimes entries u64MAX line hmem hbad
  have hs : sample (some entries) now atimes = .error k := hk
  exact ⟨⟨k, hs⟩, fun m hc => by rw [hs] at hc; exact Except.noConfusion hc⟩

/-- Closed witness for the amended C3, at the concrete two-session
table of the counterexample. -/
theorem c3_unreadable_device_panics_witness :
    (∃ k, sample
      (some [UtmpEntry.userProcess "ttyA", UtmpEntry.userProcess "ttyB"])
      100 (fun p => if p = devPath "ttyB" then some 0 else none) =
      .error k) ∧
    ∀ m : Nat, sample
      (some [UtmpEntry.userProcess "ttyA", UtmpEntry.userProcess "ttyB"])
      100 (fun p => if p = devPath "ttyB" then some 0 else none) ≠ .ok m :=
  c3_unreadable_device_panics 100
    (fun p => if p = devPath "ttyB" then some 0 else none)
    [UtmpEntry.userProcess "ttyA", UtmpEntry.userProcess "ttyB"] "ttyA"
    (List.mem_cons_self _ _) (by simp [devPath])

/-- A connect environment in which every stage succeeds, handing out
connection handle 0, with no seats; used by the C1 counterexample. -/
def c1ConnOk : ConnectEnv :=
  { displayVar := true, uid := 0, socketAt := fun _ => false
    connectOk := some 0, roundtripOk := true, bindNotifierOk := true
    seats := [] }

/-- First tick environment of the C1 counterexample: unreadable session
table (sentinel idle), link Disabled so a successful connect happens. -/
def c1Env1 : TickEnv :=
  { utmp := none, now := 0, atimes := fun _ => none, recv := .ok
    events := [], conn := c1ConnOk }

/-- Second tick environment: the compositor delivers the Idled event. -/
def c1Env2 : TickEnv :=
  { utmp := none, now := 0, atimes := fun _ => none, recv := .ok
    events := [.idled], conn := c1ConnOk }

/-- Third tick environment: nothing new from the compositor; the idle
flag of State is still true. -/
def c1Env3 : TickEnv :=
  { utmp := none, now := 0, atimes := fun _ => none, recv := .ok
    events := [], conn := c1ConnOk }

/-- Counterexample to claim C1: with threshold 10 and the session table
unreadable (sentinel idle duration), tick 1 connects, tick 2 receives
the Idled event, fires and spawns, and tick 3 — with the link still
Enabled and its idle flag still true — fires and spawns again. Ticks 2
and 3 form one contiguous idle episode (the fusion rule evaluates true
on both, with no false tick between them), yet the action command is
spawned twice: the spawn is not limited to once per episode. The local
reset of wayland_idle after the spawn is overwritten on the next
Enabled tick by the idle flag of State. -/
theorem c1_counterexample :
    run 10 [c1Env1, c1Env2, c1Env3] initState =
      .ok ({ wayland := .enabled 0 true, wayland_idle := false },
        [⟨u64MAX, false, false, false⟩,
         ⟨u64MAX, true, true, true⟩,
         ⟨u64MAX, true, true, true⟩]) := by
  rfl

/-- Claim C1 as amended: the loop keeps no debounce flag. On every
tick the action is spawned exactly when the fusion rule fires, so a
second firing tick of the same episode spawns again. What the
post-spawn reset of the carried flag wayland_idle does guarantee is
local: after a spawn the stored flag is false, a tick that starts
Disabled reads exactly the carried flag, and such a tick can only
spawn if the carried flag was left true. -/
theorem c1_spawn_every_fire_tick (idle_limit : Nat) (env : TickEnv)
    (s s1 : LoopState) (o : TickOut)
    (h : tick idle_limit env s = .ok (s1, o)) :
    o.spawned = o.fire ∧
    (o.spawned = true → s1.wayland_idle = false) ∧
    (s.wayland = .disabled →
      o.graphical_idle = s.wayland_idle ∧
      (o.spawned = true → s.wayland_idle = true)) := by
  obtain ⟨ma, _, hc⟩ := tick_ok_elim h
  cases hw : s.wayland <;> simp only [tickCore, hw] at hc <;>
    obtain ⟨h1, h2⟩ := Prod.mk.injEq .. ▸ hc <;> subst h1 <;> subst h2
  · refine ⟨rfl, ?_, by simp⟩
    intro hsp
    simp only [TickOut.spawned] at hsp
    simp [hsp]
  · refine ⟨rfl, ?_, ?_⟩
    · intro hsp
      simp only [TickOut.spawned] at hsp
      simp [hsp]
    · intro _
      refine ⟨rfl, ?_⟩
      intro hsp
      simp only [TickOut.spawned] at hsp
      simp only [fireDecision, Bool.and_eq_true] at hsp
      exact hsp.2

/-- Closed witness for the amended C1, at the second tick of the
counterexample trace: the tick fires, spawns, and leaves the carried
flag false. -/
theorem c1_spawn_every_fire_tick_witness :
    (⟨u64MAX, true, true, true⟩ : TickOut).spawned =
      (⟨u64MAX, true, true, true⟩ : TickOut).fire ∧
    ({ wayland := .enabled 0 true, wayland_idle := false } :
      LoopState).wayland_idle = false :=
  have h := c1_spawn_every_fire_tick 10 c1Env2
    { wayland := .enabled 0 false, wayland_idle := false }
    { wayland := .enabled 0 true, wayland_idle := false }
    ⟨u64MAX, true, true, true⟩ (by rfl)
  ⟨h.1, h.2.1 rfl⟩

/-- A connect environment in which the compositor connect fails (with
WAYLAND_DISPLAY set, so no probing); used by the C4 counterexample. -/
def c4ConnFail : ConnectEnv :=
  { displayVar := true, uid := 0, socketAt := fun _ => false
    connectOk := none, roundtripOk := true, bindNotifierOk := true
    seats := [] }

/-- One readable user-process session, last active at the sampled now,
so most_active = 0 and the fusion rule never fires at threshold 10. -/
def c4Atimes : String → Option Int :=
  fun p => if p = devPath "tty0" then some 100 else none

/-- First tick environment of the C4 counterexample: the link starts
Disabled and the connect attempt succeeds. -/
def c4Env1 : TickEnv :=
  { utmp := some [.userProcess "tty0"], now := 100, atimes := c4Atimes
    recv := .ok, events := [], conn := c1ConnOk }

/-- Second tick environment: the Idled event arrives together with a
receive error that is not WouldBlock, and the reconnect fails. -/
def c4Env2 : TickEnv :=
  { utmp := some [.userProcess "tty0"], now := 100, atimes := c4Atimes
    recv := .errOther, events := [.idled], conn := c4ConnFail }

/-- Third tick environment: the link is Disabled for the whole tick
and the reconnect attempt fails again. -/
def c4Env3 : TickEnv :=
  { utmp := some [.userProcess "tty0"], now := 100, atimes := c4Atimes
    recv := .ok, events := [], conn := c4ConnFail }

/-- Counterexample to claim C4: after two ticks the loop state is
Unlinked with the carried flag wayland_idle = true (the Idled event was
read on the tick whose service failed). The third tick starts Unlinked,
its reconnect attempt fails (the post-state is still Unlinked), yet the
graphical flag used by the fusion rule on that tick is true, not false:
the stale value read while Linked is reused, contradicting the claim
that a still-Unlinked tick uses graphical_idle = false. -/
theorem c4_counterexample :
    run 10 [c4Env1, c4Env2] initState =
      .ok ({ wayland := .disabled, wayland_idle := true },
        [⟨0, false, false, false⟩, ⟨0, true, false, false⟩]) ∧
    tick 10 c4Env3 { wayland := .disabled, wayland_idle := true } =
      .ok ({ wayland := .disabled, wayland_idle := true },
        ⟨0, true, false, false⟩) := by
  exact ⟨rfl, rfl⟩

/-- Claim C4 as amended: on every tick that starts Unlinked a reconnect
is attempted — the link after the tick is exactly the outcome of the
connect attempt — but the graphical flag used by the fusion rule on
that tick is the carried wayland_idle value from earlier ticks
(initially false), which is not reset to false when the attempt leaves
the supervisor Unlinked. -/
theorem c4_stale_graphical_flag (idle_limit : Nat) (env : TickEnv)
    (s s1 : LoopState) (o : TickOut)
    (hd : s.wayland = .disabled)
    (h : tick idle_limit env s = .ok (s1, o)) :
    s1.wayland = (wayland_connect env.conn idle_limit).link ∧
    o.graphical_idle = s.wayland_idle := by
  obtain ⟨ma, _, hc⟩ := tick_ok_elim h
  simp only [tickCore, hd] at hc
  obtain ⟨h1, h2⟩ := Prod.mk.injEq .. ▸ hc
  subst h1; subst h2
  exact ⟨rfl, rfl⟩

/-- Closed witness for the amended C4, at the third tick of the
counterexample trace. -/
theorem c4_stale_graphical_flag_witness :
    ({ wayland := .disabled, wayland_idle := true } : LoopState).wayland =
      (wayland_connect c4Env3.conn 10).link ∧
    (⟨0, true, false, false⟩ : TickOut).graphical_idle =
      ({ wayland := .disabled, wayland_idle := true } :
        LoopState).wayland_idle :=
  c4_stale_graphical_flag 10 c4Env3
    { wayland := .disabled, wayland_idle := true }
    { wayland := .disabled, wayland_idle := true }
    ⟨0, true, false, false⟩ rfl (by rfl)

/-- Claim C5: while the link is Enabled, a receive outcome that is not
an error other than WouldBlock (success or WouldBlock) leaves the link
Enabled on the same connection, its idle flag updated only by the
dispatched events; an error other than WouldBlock discards the failed
connection — the link after the tick is exactly the outcome of a fresh
connect attempt, and if that outcome is Enabled its connection handle
comes from the new connect with idle reset to false, never the failed
connection. -/
theorem c5_service_linked (idle_limit : Nat) (env : TickEnv)
    (s s1 : LoopState) (o : TickOut) (conn : Nat) (idle : Bool)
    (hs : s.wayland = .enabled conn idle)
    (h : tick idle_limit env s = .ok (s1, o)) :
    (env.recv ≠ .errOther →
      s1.wayland = .enabled conn (dispatch_events idle env.events)) ∧
    (env.recv = .errOther →
      s1.wayland = (wayland_connect env.conn idle_limit).link ∧
      ∀ c2 i2, s1.wayland = .enabled c2 i2 →
        env.conn.connectOk = some c2 ∧ i2 = false) := by
  obtain ⟨ma, _, hc⟩ := tick_ok_elim h
  simp only [tickCore, hs] at hc
  obtain ⟨h1, h2⟩ := Prod.mk.injEq .. ▸ hc
  subst h1; subst h2
  constructor
  · intro hne
    simp [if_neg hne]
  · intro heq
    rw [if_pos heq]
    exact ⟨rfl, fun c2 i2 hl => connect_enabled_elim hl⟩

/-- Closed witness for C5: a WouldBlock receive on an Enabled link with
handle 3 leaves the link Enabled on handle 3. -/
theorem c5_service_linked_witness :
    ({ wayland := .enabled 3 true, wayland_idle := false } :
      LoopState).wayland = .enabled 3 (dispatch_events true []) :=
  (c5_service_linked 10
    { utmp := none, now := 0, atimes := fun _ => none
      recv := .errWouldBlock, events := [], conn := c4ConnFail }
    { wayland := .enabled 3 true, wayland_idle := true }
    { wayland := .enabled 3 true, wayland_idle := false }
    ⟨u64MAX, true, true, true⟩ 3 true rfl (by rfl)).1 (by simp)

/-- Claim C6: the connect attempt is atomic for the link state — it
returns Enabled exactly when every fallible stage succeeds: the display
endpoint resolves (variable set, or the probe finds a socket), the
connect with globals collection succeeds, the synchronous round-trip
succeeds, and the idle-notifier bind at version 1..=1 succeeds (seat
binding and per-seat subscription have no failure path in the source);
and any Enabled result holds exactly the fresh connection with the
idle flag initialised false — no partially-linked state exists. -/
theorem c6_connect_atomic (env : ConnectEnv) (idle_limit : Nat) :
    ((∃ conn idle, (wayland_connect env idle_limit).link =
        .enabled conn idle) ↔
      ((env.displayVar = true ∨ (probeDisplay env.socketAt).isSome = true) ∧
        env.connectOk.isSome = true ∧ env.roundtripOk = true ∧
        env.bindNotifierOk = true)) ∧
    (∀ conn idle, (wayland_connect env idle_limit).link =
        .enabled conn idle →
      env.connectOk = some conn ∧ idle = false) := by
  refine ⟨?_, fun conn idle h => connect_enabled_elim h⟩
  cases hd : env.displayVar <;>
    cases hp : probeDisplay env.socketAt <;>
      cases hc : env.connectOk <;>
        cases hr : env.roundtripOk <;>
          cases hb : env.bindNotifierOk <;>
            simp_all [wayland_connect]

/-- Closed witness for C6: with every stage succeeding the link comes
back Enabled. -/
theorem c6_connect_atomic_witness :
    ∃ conn idle, (wayland_connect c1ConnOk 3600).link = .enabled conn idle :=
  (c6_connect_atomic c1ConnOk 3600).1.mpr ⟨Or.inl rfl, rfl, rfl, rfl⟩

lemma find?_sorted_eq_some (p : Nat → Bool) :
    ∀ l : List Nat, l.Sorted (· < ·) → ∀ i : Nat,
      (l.find? p = some i ↔
        i ∈ l ∧ p i = true ∧ ∀ j ∈ l, j < i → p j = false) := by
  intro l
  induction l with
  | nil => intro _ i; simp
  | cons a t ih =>
    intro hs i
    rw [List.sorted_cons] at hs
    obtain ⟨ha, ht⟩ := hs
    by_cases hpa : p a = true
    · rw [List.find?_cons_of_pos _ hpa]
      constructor
      · intro h
        injection h with h
        subst h
        refine ⟨List.mem_cons_self _ _, hpa, ?_⟩
        intro j hj hji
        rcases List.mem_cons.mp hj with rfl | hjt
        · exact absurd hji (lt_irrefl j)
        · exact absurd hji (not_lt_of_gt (ha j hjt))
      · rintro ⟨hmem, hpi, hmin⟩
        rcases List.mem_cons.mp hmem with rfl | hit
        · rfl
        · have := hmin a (List.mem_cons_self _ _) (ha i hit)
          rw [this] at hpa
          exact absurd hpa (by simp)
    · rw [List.find?_cons_of_neg _ (by simpa using hpa)]
      rw [ih ht i]
      constructor
      · rintro ⟨hm, hpi, hmin⟩
        refine ⟨List.mem_cons_of_mem _ hm, hpi, ?_⟩
        intro j hj hji
        rcases List.mem_cons.mp hj with rfl | hjt
        · exact Bool.eq_false_iff.mpr hpa
        · exact hmin j hjt hji
      · rintro ⟨hm, hpi, hmin⟩
        rcases List.mem_cons.mp hm with rfl | hit
        · exact absurd hpi hpa
        · exact ⟨hit, hpi, fun j hj hji =>
            hmin j (List.mem_cons_of_mem _ hj) hji⟩

lemma range_one_nine_sorted : (List.range' 1 9).Sorted (· < ·) := by
  decide

lemma connect_setDisplayVar_of_probe {env : ConnectEnv} {idle_limit i : Nat}
    (hv : env.displayVar = false) (hp : probeDisplay env.socketAt = some i) :
    (wayland_connect env idle_limit).setDisplayVar = some i := by
  cases hc : env.connectOk <;>
    cases hr : env.roundtripOk <;>
      cases hb : env.bindNotifierOk <;>
        simp [wayland_connect, hv, hp, hc, hr, hb]

lemma connect_probe_failed {env : ConnectEnv} {idle_limit : Nat}
    (hv : env.displayVar = false) (hp : probeDisplay env.socketAt = none) :
    (wayland_connect env idle_limit).link = .disabled ∧
    (wayland_connect env idle_limit).noDisplayReported = true ∧
    (wayland_connect env idle_limit).setDisplayVar = none := by
  simp [wayland_connect, hv, hp]

/-- Claim C8: with the display-endpoint variable absent, the connect
attempt probes the per-user socket paths with indices 1..9 in
increasing order: a probe result i is an index in 1..9 whose socket
exists while every smaller probed index does not, and the environment
variable is then set to that index; when a socket exists at some index
in 1..9 the probe succeeds; and when the probe fails the attempt
reports that no display was found and returns Disabled (the function
is total — nothing aborts). -/
theorem c8_probe_display (env : ConnectEnv) (idle_limit : Nat)
    (hv : env.displayVar = false) :
    (∀ i, probeDisplay env.socketAt = some i →
      ((wayland_connect env idle_limit).setDisplayVar = some i ∧
        1 ≤ i ∧ i ≤ 9 ∧ env.socketAt i = true ∧
        ∀ j, 1 ≤ j → j < i → env.socketAt j = false)) ∧
    ((∃ i, 1 ≤ i ∧ i ≤ 9 ∧ env.socketAt i = true) →
      (probeDisplay env.socketAt).isSome = true) ∧
    (probeDisplay env.socketAt = none →
      ((wayland_connect env idle_limit).link = .disabled ∧
        (wayland_connect env idle_limit).noDisplayReported = true ∧
        (wayland_connect env idle_limit).setDisplayVar = none)) := by
  have hchar := find?_sorted_eq_some (fun i => env.socketAt i)
    (List.range' 1 9) range_one_nine_sorted
  have hmem : ∀ i : Nat, i ∈ List.range' 1 9 ↔ 1 ≤ i ∧ i < 10 := by
    intro i
    constructor
    · intro h; have := List.mem_range'_1.mp h; omega
    · intro h; exact List.mem_range'_1.mpr (by omega)
  refine ⟨?_, ?_, ?_⟩
  · intro i hp
    obtain ⟨hi, hpi, hmin⟩ := (hchar i).mp hp
    have hrange := (hmem i).mp hi
    refine ⟨connect_setDisplayVar_of_probe hv hp, by omega, by omega, hpi, ?_⟩
    intro j h1 hji
    exact hmin j ((hmem j).mpr ⟨h1, by omega⟩) hji
  · rintro ⟨i, h1, h9, hsock⟩
    rw [probeDisplay, List.find?_isSome]
    exact ⟨i, (hmem i).mpr ⟨h1, by omega⟩, hsock⟩
  · intro hp
    exact connect_probe_failed hv hp

/-- A connect environment with no display variable and sockets at
indices 3 and 5 only; used as the C8 witness input. -/
def c8Env : ConnectEnv :=
  { displayVar := false, uid := 1000
    socketAt := fun n => n == 3 || n == 5
    connectOk := some 0, roundtripOk := true, bindNotifierOk := true
    seats := [] }

/-- Closed witness for C8: with sockets at indices 3 and 5 the probe
selects 3 — the first existing index — and the variable is set to 3. -/
theorem c8_probe_display_witness :
    (wayland_connect c8Env 3600).setDisplayVar = some 3 ∧
    c8Env.socketAt 3 = true ∧
    ∀ j, 1 ≤ j → j < 3 → c8Env.socketAt j = false :=
  have h := (c8_probe_display c8Env 3600 rfl).1 3 (by rfl)
  ⟨h.1, h.2.2.2.1, h.2.2.2.2⟩

/-- Claim C10: every idle-notification subscription registered by a
connect attempt carries the threshold idle_limit as u32 * 1000, i.e.
the timeout truncated to 32 bits then multiplied by 1000 with wrapping
32-bit arithmetic; whenever the truncation exceeds 4294967 seconds the
product reaches 2^32, so the registered threshold is the wrapped value
(timeout mod 2^32) * 1000 mod 2^32 and differs from timeout * 1000;
below that bound no wrap occurs. -/
theorem c10_threshold_wrap (idle_limit : Nat) (env : ConnectEnv) :
    (∀ q ∈ (wayland_connect env idle_limit).subs,
      q.2 = thresholdMs idle_limit) ∧
    thresholdMs idle_limit = ((idle_limit % 2 ^ 32) * 1000) % 2 ^ 32 ∧
    (4294967 < idle_limit % 2 ^ 32 →
      2 ^ 32 ≤ (idle_limit % 2 ^ 32) * 1000 ∧
      thresholdMs idle_limit < (idle_limit % 2 ^ 32) * 1000 ∧
      thresholdMs idle_limit ≠ idle_limit * 1000) ∧
    (idle_limit % 2 ^ 32 ≤ 4294967 →
      thresholdMs idle_limit = (idle_limit % 2 ^ 32) * 1000) := by
  have h32 : (2 : Nat) ^ 32 = 4294967296 := by norm_num
  have hmodle : idle_limit % 2 ^ 32 ≤ idle_limit := Nat.mod_le _ _
  refine ⟨fun q hq => connect_subs_elim hq, rfl, ?_, ?_⟩
  · intro hbig
    unfold thresholdMs
    rw [h32] at hbig ⊢
    refine ⟨by omega, ?_, ?_⟩
    · have hlt : (idle_limit % 4294967296) * 1000 % 4294967296 < 4294967296 :=
        Nat.mod_lt _ (by omega)
      omega
    · have hlt : (idle_limit % 4294967296) * 1000 % 4294967296 < 4294967296 :=
        Nat.mod_lt _ (by omega)
      have hle2 : (idle_limit % 4294967296) * 1000 ≤ idle_limit * 1000 := by
        rw [h32] at hmodle
        exact Nat.mul_le_mul_right 1000 hmodle
      omega
  · intro hsmall
    unfold thresholdMs
    rw [h32] at hsmall ⊢
    have : (idle_limit % 4294967296) * 1000 < 4294967296 := by omega
    omega

/-- Closed witness for C10: a connect with one seat registers the
subscription threshold thresholdMs, and at timeout 4294968 the
truncated product wraps, so the registered threshold is not
4294968 * 1000. -/
theorem c10_threshold_wrap_witness :
    (∀ q ∈ (wayland_connect
        { displayVar := true, uid := 0, socketAt := fun _ => false
          connectOk := some 0, roundtripOk := true
          bindNotifierOk := true, seats := [7] } 4294968).subs,
      q.2 = thresholdMs 4294968) ∧
    thresholdMs 4294968 ≠ 4294968 * 1000 :=
  have h := c10_threshold_wrap 4294968
    { displayVar := true, uid := 0, socketAt := fun _ => false
      connectOk := some 0, roundtripOk := true
      bindNotifierOk := true, seats := [7] }
  ⟨h.1, (h.2.2.1 (by norm_num)).2.2⟩

end Idlewatcher
